import Mathlib

/-!
Verification of the Workiz multi-account fetcher (`workiz_fetcher.py`).

The development shallowly embeds the fetch/reconcile pipeline of the
script: Python values (the decoded-JSON fragment the script manipulates)
become an inductive `Value` type, dict-shaped records become association
lists, the retry loop and the pagination loop become fuel/structurally
recursive functions returning explicit exit information, and the
stateful per-account reconciliation (dedup map, retention filter,
per-status tally, summary row) becomes pure list-processing functions.
Randomness (`uuid.uuid4()`) is modelled by an explicit supply of fresh
identifier strings, and wall-clock sleeping is modelled by recording
which attempt number each `_sleep_backoff` call received.
-/

namespace Workiz

/-! ### Python value model -/

/-- A decoded-JSON-style Python value, as manipulated by the script:
`None`, booleans, integers, strings, lists and string-keyed dicts. -/
inductive Value where
  | null : Value
  | bool : Bool → Value
  | int : Int → Value
  | str : String → Value
  | list : List Value → Value
  | dict : List (String × Value) → Value

/-- A record as handled by the reconciliation code: a string-keyed
mapping (Python dict), in insertion order. -/
abbrev Rec := List (String × Value)

/-- Python truthiness (`bool(v)`) for the modelled values. -/
def pyTruthy : Value → Bool
  | Value.null => false
  | Value.bool b => b
  | Value.int n => n != 0
  | Value.str s => s != ""
  | Value.list xs => !xs.isEmpty
  | Value.dict fs => !fs.isEmpty

/-- `row.get(k)` on a dict: the value stored under the first binding of
`k`, or `None` when the key is absent. -/
def dictGet (fs : Rec) (k : String) : Value :=
  match fs.find? (fun p => p.1 == k) with
  | some p => p.2
  | none => Value.null

/-- `k in row` on a dict. -/
def dictHas (fs : Rec) (k : String) : Bool :=
  (fs.find? (fun p => p.1 == k)).isSome

mutual

/-- Models Python `repr` on the value shapes the script can meet
(`str(obj)` falls back to this rendering for lists and dicts). -/
def pyRepr : Value → String
  | Value.null => "None"
  | Value.bool true => "True"
  | Value.bool false => "False"
  | Value.int n => toString n
  | Value.str s => "'" ++ s ++ "'"
  | Value.list xs => "[" ++ pyReprItems xs ++ "]"
  | Value.dict fs => "\x7b" ++ pyReprFields fs ++ "\x7d"

/-- Comma-separated `repr`s of the items of a list. -/
def pyReprItems : List Value → String
  | [] => ""
  | [x] => pyRepr x
  | x :: xs => pyRepr x ++ ", " ++ pyReprItems xs

/-- Comma-separated `'key': repr(value)` renderings of a dict's fields. -/
def pyReprFields : List (String × Value) → String
  | [] => ""
  | [kv] => "'" ++ kv.1 ++ "': " ++ pyRepr kv.2
  | kv :: kvs => "'" ++ kv.1 ++ "': " ++ pyRepr kv.2 ++ ", " ++ pyReprFields kvs

end

/-- Models Python `str(v)`. -/
def pyStr : Value → String
  | Value.str s => s
  | v => pyRepr v

/-- Models Python `str.strip()` with no argument: remove leading and
trailing whitespace (restricted to ASCII whitespace, the only kind the
script's data carries). -/
def pyStrip (s : String) : String :=
  ⟨((s.data.dropWhile Char.isWhitespace).reverse.dropWhile Char.isWhitespace).reverse⟩

/-- Models `s.endswith(c)` for a one-character suffix. -/
def pyEndsWith (s : String) (c : Char) : Bool :=
  match s.data.getLast? with
  | some x => x = c
  | none => false

/-- Models `c in s` for a one-character needle. -/
def pyContainsChar (s : String) (c : Char) : Bool :=
  s.data.any (fun x => x = c)

/-- Models `s.replace(c, r)` for a one-character pattern: every
occurrence of `c` is replaced by `r`. -/
def pyReplaceChar (s : String) (c : Char) (r : String) : String :=
  ⟨s.data.foldr (fun x acc => if x = c then r.data ++ acc else x :: acc) []⟩

/-- Models the slice `s[:n]`. -/
def pySliceTake (s : String) (n : Nat) : String :=
  ⟨s.data.take n⟩

/-- Models the slice `s[-n:]`. -/
def pySliceLast (s : String) (n : Nat) : String :=
  ⟨s.data.drop (s.data.length - n)⟩

/-! ### Script constants (CONFIG section of `workiz_fetcher.py`) -/

def PAGE_SIZE : Nat := 100

def MAX_RETRIES : Nat := 4

def JOB_STATUSES : List String :=
  ["Submitted", "In Progress", "Done", "Done Pending Approval", "Canceled"]

def CREATED_KEYS : List String :=
  ["created_at", "createdAt", "time_created", "jobDateTime", "date_created", "CreatedDate"]

def SCHEDULED_KEYS : List String :=
  ["scheduled_start", "scheduledAt", "start_time", "ScheduledStart"]

/-! ### Date parsing (`parse_dt`, `in_this_year`) -/

/-- The parts of a `datetime.datetime` the script can observe: the
script only reads `year`, but the parser of the full timestamp shape is
kept so that invalid strings are rejected exactly where Python rejects
them. `tzSeconds` is the UTC offset in seconds when one is given. -/
structure PyDateTime where
  year : Nat
  month : Nat
  day : Nat
  hour : Nat
  minute : Nat
  second : Nat
  microsecond : Nat
  tzSeconds : Option Int
  deriving DecidableEq

def digitVal? (c : Char) : Option Nat :=
  if c.isDigit then some (c.toNat - 48) else none

/-- Read exactly two digits. -/
def read2 : List Char → Option (Nat × List Char)
  | a :: b :: rest => do
    let x ← digitVal? a
    let y ← digitVal? b
    pure (x * 10 + y, rest)
  | _ => none

/-- Read exactly four digits. -/
def read4 : List Char → Option (Nat × List Char)
  | a :: b :: c :: d :: rest => do
    let x ← digitVal? a
    let y ← digitVal? b
    let z ← digitVal? c
    let w ← digitVal? d
    pure (((x * 10 + y) * 10 + z) * 10 + w, rest)
  | _ => none

def expectChar (cs : List Char) (c : Char) : Option (List Char) :=
  match cs with
  | x :: rest => if x = c then some rest else none
  | [] => none

def isLeapYear (y : Nat) : Bool :=
  y % 4 == 0 && (y % 100 != 0 || y % 400 == 0)

def daysInMonth (y m : Nat) : Nat :=
  if m = 2 then (if isLeapYear y then 29 else 28)
  else if m = 4 ∨ m = 6 ∨ m = 9 ∨ m = 11 then 30
  else 31

/-- Read a fractional-second part `.d{1,6}`, returning microseconds. -/
def readFrac : List Char → Option (Nat × List Char)
  | '.' :: rest =>
    let digs := rest.takeWhile Char.isDigit
    let rest := rest.dropWhile Char.isDigit
    if digs.length < 1 ∨ 6 < digs.length then none
    else
      let v := digs.foldl (fun a c => a * 10 + (c.toNat - 48)) 0
      some (v * 10 ^ (6 - digs.length), rest)
  | _ => none

/-- Read `HH:MM[:SS[.ffffff]]`. -/
def readTime (cs : List Char) : Option ((Nat × Nat × Nat × Nat) × List Char) := do
  let (h, cs) ← read2 cs
  let cs ← expectChar cs ':'
  let (mi, cs) ← read2 cs
  if 23 < h ∨ 59 < mi then none
  else
    match expectChar cs ':' with
    | none => pure ((h, mi, 0, 0), cs)
    | some cs => do
      let (s, cs) ← read2 cs
      if 59 < s then none
      else
        match readFrac cs with
        | none => pure ((h, mi, s, 0), cs)
        | some (us, cs) => pure ((h, mi, s, us), cs)

/-- Read a UTC-offset suffix `±HH:MM[:SS[.ffffff]]`, as seconds. -/
def readTz (cs : List Char) : Option (Int × List Char) := do
  let (sign, cs) ← match cs with
    | '+' :: rest => some ((1 : Int), rest)
    | '-' :: rest => some ((-1 : Int), rest)
    | _ => none
  let ((h, mi, s, _us), cs) ← readTime cs
  pure (sign * (((h * 60 + mi) * 60 + s) : Nat), cs)

/-- Models `datetime.datetime.fromisoformat` (Python standard library,
an external collaborator of the script) on the ISO-8601 extended shapes
the script can feed it: `YYYY-MM-DD`, optionally followed by a one-char
separator, a time `HH:MM[:SS[.f{1,6}]]` and a UTC offset
`±HH:MM[:SS]`. Out-of-range components are rejected. -/
def fromisoformat (s : String) : Option PyDateTime := do
  let cs := s.data
  let (y, cs) ← read4 cs
  let cs ← expectChar cs '-'
  let (mo, cs) ← read2 cs
  let cs ← expectChar cs '-'
  let (d, cs) ← read2 cs
  if y < 1 ∨ mo < 1 ∨ 12 < mo ∨ d < 1 ∨ daysInMonth y mo < d then none
  else
    match cs with
    | [] => pure ⟨y, mo, d, 0, 0, 0, 0, none⟩
    | _sep :: rest => do
      let ((h, mi, sec, us), rest) ← readTime rest
      match rest with
      | [] => pure ⟨y, mo, d, h, mi, sec, us, none⟩
      | _ => do
        let (tz, rest) ← readTz rest
        match rest with
        | [] => pure ⟨y, mo, d, h, mi, sec, us, some tz⟩
        | _ => none

/-- `parse_dt` from `workiz_fetcher.py`: `None` unless the argument is
a truthy string; otherwise strip it, rewrite a trailing-`Z` string by
replacing every `Z` with `+00:00`, replace spaces with `T` when the
string has a space and no `T`, and attempt ISO parsing; any parse
failure yields `None`. The argument is the result of a field probe, so
an absent field arrives as `none`. -/
def parse_dt (val : Option Value) : Option PyDateTime :=
  match val with
  | some (Value.str s) =>
    if s = "" then none
    else
      let v := pyStrip s
      let v := if pyEndsWith v 'Z' then pyReplaceChar v 'Z' "+00:00" else v
      let v :=
        if pyContainsChar v ' ' && !(pyContainsChar v 'T') then pyReplaceChar v ' ' "T" else v
      fromisoformat v
  | _ => none

/-- `in_this_year`: `bool(dt and dt.year == THIS_YEAR)`, with the target
year passed explicitly (the script fixes it to the current UTC year at
startup). -/
def in_this_year (thisYear : Nat) : Option PyDateTime → Bool
  | none => false
  | some dt => dt.year == thisYear

/-- `get_field`: the first key of `keys` that is present in the row with
a truthy value; `None` otherwise. -/
def get_field (row : Rec) (keys : List String) : Option Value :=
  match keys with
  | [] => none
  | k :: ks =>
    if dictHas row k && pyTruthy (dictGet row k) then some (dictGet row k)
    else get_field row ks

/-- `keep_created_or_scheduled_this_year`: the retention predicate. -/
def keep_created_or_scheduled_this_year (thisYear : Nat) (row : Rec) : Bool :=
  in_this_year thisYear (parse_dt (get_field row CREATED_KEYS)) ||
  in_this_year thisYear (parse_dt (get_field row SCHEDULED_KEYS))

/-! ### Identity keys and deduplication (`get_uuid`, dedup loop in `main`) -/

/-- The value of an `or`-chain of probes `row.get(k₁) or row.get(k₂) or …`:
the first truthy probed value, if any. -/
def firstTruthy (row : Rec) : List String → Option Value
  | [] => none
  | k :: ks =>
    if pyTruthy (dictGet row k) then some (dictGet row k)
    else firstTruthy row ks

def UUID_KEYS : List String := ["uuid", "UUID", "id", "Id"]

/-- `get_uuid`: `str(row.get("uuid") or row.get("UUID") or row.get("id")
or row.get("Id") or uuid.uuid4())`. The random identifier produced by
`uuid.uuid4()` is supplied explicitly as `fresh`. -/
def get_uuid (row : Rec) (fresh : String) : String :=
  match firstTruthy row UUID_KEYS with
  | some v => pyStr v
  | none => fresh

/-- Lookup in an association list by key (first binding wins), as a
Python dict read does. -/
def lookupRec {α : Type} (m : List (String × α)) (k : String) : Option α :=
  match m.find? (fun p => p.1 == k) with
  | some p => some p.2
  | none => none

/-- The dedup loop of `main`: fold the concatenated pulls into a
mapping keyed by `get_uuid`, inserting a record only when its key is not
yet present. `fresh` is the stream of `uuid.uuid4()` outputs and `c`
counts how many have been consumed so far. Python dicts preserve
insertion order, so the mapping is an association list extended at the
end. -/
def dedupInto (fresh : Nat → String) : List Rec → Nat → List (String × Rec) → List (String × Rec)
  | [], _, acc => acc
  | r :: rs, c, acc =>
    match firstTruthy r UUID_KEYS with
    | some v =>
      if (lookupRec acc (pyStr v)).isSome then dedupInto fresh rs c acc
      else dedupInto fresh rs c (acc ++ [(pyStr v, r)])
    | none =>
      if (lookupRec acc (fresh c)).isSome then dedupInto fresh rs (c + 1) acc
      else dedupInto fresh rs (c + 1) (acc ++ [(fresh c, r)])

/-- The dedup mapping built by `main` from the concatenation of the two
pulls (`raw_created + raw_wide`). -/
def build_dedup (fresh : Nat → String) (rows : List Rec) : List (String × Rec) :=
  dedupInto fresh rows 0 []

/-- The identity key each record of the input sequence evaluates to, in
input order, with the same fresh-identifier threading as the dedup
loop. -/
def assignKeys (fresh : Nat → String) : List Rec → Nat → List (String × Rec)
  | [], _ => []
  | r :: rs, c =>
    match firstTruthy r UUID_KEYS with
    | some v => (pyStr v, r) :: assignKeys fresh rs c
    | none => (fresh c, r) :: assignKeys fresh rs (c + 1)

/-! ### Per-status tally and summary row (`main`) -/

/-- The status value a kept record is tallied under:
`(r.get("status") or r.get("JobStatus") or r.get("_status_pull") or "").strip()`.
Python raises when the chosen value is not a string (`.strip()` on a
non-`str`), modelled as `none`. -/
def tallyKey (r : Rec) : Option String :=
  match firstTruthy r ["status", "JobStatus", "_status_pull"] with
  | some (Value.str s) => some (pyStrip s)
  | some _ => none
  | none => some ""

/-- One tally step: `if st in status_counts: status_counts[st] += 1
else: status_counts.setdefault(st, 0); status_counts[st] += 1`. -/
def bump (m : List (String × Nat)) (k : String) : List (String × Nat) :=
  if (lookupRec m k).isSome then
    m.map (fun p => if p.1 == k then (p.1, p.2 + 1) else p)
  else m ++ [(k, 1)]

def status_countsAux : List Rec → List (String × Nat) → Option (List (String × Nat))
  | [], m => some m
  | r :: rs, m =>
    match tallyKey r with
    | some k => status_countsAux rs (bump m k)
    | none => none

/-- The per-status tally of `main` over the kept rows, starting from a
zero count for each of the five fixed statuses. `none` models a raised
exception (a non-string status value). -/
def status_counts (rows : List Rec) : Option (List (String × Nat)) :=
  status_countsAux rows (JOB_STATUSES.map (fun st => (st, 0)))

/-- `status_counts.get(st, 0)`. -/
def countD (m : List (String × Nat)) (k : String) : Nat :=
  match lookupRec m k with
  | some n => n
  | none => 0

/-- The per-account summary row appended by `main`: account name,
redacted endpoint, lead count, the five fixed per-status counts, and
`Jobs_Total = len(kept_rows)`. -/
def summary_row (name endpoint : String) (leads : Nat) (kept : List Rec) : Option Rec :=
  match status_counts kept with
  | none => none
  | some sc => some
    ([("Account", Value.str name), ("Endpoint", Value.str endpoint),
      ("Leads", Value.int leads)]
      ++ JOB_STATUSES.map (fun st => ("Jobs_" ++ st, Value.int (countD sc st)))
      ++ [("Jobs_Total", Value.int kept.length)])

/-! ### `_get`: one page fetch with retry/backoff -/

/-- What one HTTP request can come back with: a response with a status
code and decoded body, or a network-level exception
(`requests.RequestException`). -/
inductive HttpOutcome where
  | resp : Int → Value → HttpOutcome
  | netErr : HttpOutcome

/-- The observable result of `_get`: the returned `(status, body)` pair,
how many HTTP requests were issued, and the attempt numbers passed to
`_sleep_backoff` in order (each attempt `a` sleeps
`BACKOFF_BASE_S * a ** 1.5` seconds; the float-valued duration is a
fixed strictly-increasing function of the recorded attempt number). -/
structure GetResult where
  status : Int
  body : Value
  requests : Nat
  sleeps : List Nat

/-- The synthetic error body `_get` returns after exhausting retries. -/
def retryErrorBody : Value :=
  Value.dict [("error", Value.bool true), ("msg", Value.str "network error after retries")]

/-- The `while tries < MAX_RETRIES` loop of `_get`, recursing on
`remaining = MAX_RETRIES - tries`. `src i` is the outcome of the `i`-th
HTTP request (0-based). A 200 returns the body; a status in
{429, 500, 502, 503, 504} or a network error increments `tries`, sleeps
with the incremented value and retries; any other status returns
immediately; falling out of the loop returns the synthetic error
result. -/
def getLoop (src : Nat → HttpOutcome) : Nat → Nat → List Nat → GetResult
  | 0, idx, sleeps => ⟨0, retryErrorBody, idx, sleeps⟩
  | rem + 1, idx, sleeps =>
    match src idx with
    | HttpOutcome.resp status body =>
      if status = 200 then ⟨200, body, idx + 1, sleeps⟩
      else if status = 429 ∨ status = 500 ∨ status = 502 ∨ status = 503 ∨ status = 504 then
        getLoop src rem (idx + 1) (sleeps ++ [MAX_RETRIES - rem])
      else ⟨status, body, idx + 1, sleeps⟩
    | HttpOutcome.netErr => getLoop src rem (idx + 1) (sleeps ++ [MAX_RETRIES - rem])

/-- `_get` for one page: run the retry loop with a full retry budget. -/
def _get (src : Nat → HttpOutcome) : GetResult :=
  getLoop src MAX_RETRIES 0 []

/-! ### `_normalize_payload` and `_page_through` -/

/-- `_normalize_payload`: `None` and unrecognized shapes normalize to
`[]`; a bare list is returned as is; a dict yields its `data` or
`aaData` field when that field is a list; a dict with `error is True`
yields `[]`; any other dict falls through to `[]`. -/
def _normalize_payload : Value → Value
  | Value.null => Value.list []
  | Value.list xs => Value.list xs
  | Value.dict fs =>
    match dictGet fs "data" with
    | Value.list xs => Value.list xs
    | _ =>
      match dictGet fs "aaData" with
      | Value.list xs => Value.list xs
      | _ =>
        match dictGet fs "error" with
        | Value.bool true => Value.list []
        | _ => Value.list []
  | _ => Value.list []

/-- `isinstance(page, list)`. -/
def isList : Value → Bool
  | Value.list _ => true
  | _ => false

/-- `isinstance(v, dict)`: the shape on which the signature probes of
`_page_through` are defined. -/
def isDict : Value → Bool
  | Value.dict _ => true
  | _ => false

/-- `page[0].get("uuid") or page[0].get("UUID") or page[0].get("id") or
str(page[0])[:40]`, rendered by the f-string. `none` models the
`AttributeError` raised when the first row is not a dict. -/
def sigFirstOf : Value → Option String
  | Value.dict fs =>
    match firstTruthy fs ["uuid", "UUID", "id"] with
    | some v => some (pyStr v)
    | none => some (pySliceTake (pyRepr (Value.dict fs)) 40)
  | _ => none

/-- Like `sigFirstOf`, for the last row: `… or str(page[-1])[-40:]`. -/
def sigLastOf : Value → Option String
  | Value.dict fs =>
    match firstTruthy fs ["uuid", "UUID", "id"] with
    | some v => some (pyStr v)
    | none => some (pySliceLast (pyRepr (Value.dict fs)) 40)
  | _ => none

/-- The page signature `f"{offset}:{n}:{sig_first}:{sig_last}"`. -/
def mkSig (offset n : Nat) (sigFirst sigLast : String) : String :=
  toString offset ++ ":" ++ toString n ++ ":" ++ sigFirst ++ ":" ++ sigLast

/-- Why the pagination loop stopped. `fuelOut` is not a behavior of the
script: it marks that the modelled loop was still running when the fuel
budget ran out. -/
inductive PageExit where
  | nonOk : PageExit
  | badShape : PageExit
  | shortPage : PageExit
  | sigRepeat : PageExit
  | exn : PageExit
  | fuelOut : PageExit
  deriving DecidableEq, Repr

/-- The mutable state of the `while True` loop of `_page_through`,
plus a count of `_get` calls issued so far. -/
structure PageState where
  out : List Value
  offset : Nat
  seen : List String
  calls : Nat

/-- The observable outcome of `_page_through`: accumulated rows, number
of `_get` calls, and the reason the loop stopped. -/
structure PageOut where
  out : List Value
  calls : Nat
  exit : PageExit

/-- The body of `_page_through`'s `while True` loop, fuelled.
`src calls offset` is the `(status, body)` result of the `_get` call
issued with the given call index and `offset` parameter. Mirrors the
source order: non-200 breaks; the normalized page must be a list; a
non-empty page computes its signature and breaks when it was already
seen, recording it otherwise; rows are appended; a short page breaks;
otherwise the offset advances by `PAGE_SIZE` and the loop continues. -/
def pageLoop (src : Nat → Nat → Int × Value) : Nat → PageState → PageOut
  | 0, st => ⟨st.out, st.calls, PageExit.fuelOut⟩
  | fuel + 1, st =>
    let res := src st.calls st.offset
    let calls := st.calls + 1
    if res.1 = 200 then
      match _normalize_payload res.2 with
      | Value.list page =>
        if page.length = 0 then ⟨st.out ++ page, calls, PageExit.shortPage⟩
        else
          match page.head? >>= sigFirstOf, page.getLast? >>= sigLastOf with
          | some sf, some sl =>
            let sig := mkSig st.offset page.length sf sl
            if st.seen.contains sig then ⟨st.out, calls, PageExit.sigRepeat⟩
            else
              let out := st.out ++ page
              if page.length < PAGE_SIZE then ⟨out, calls, PageExit.shortPage⟩
              else pageLoop src fuel ⟨out, st.offset + PAGE_SIZE, sig :: st.seen, calls⟩
          | _, _ => ⟨st.out, calls, PageExit.exn⟩
      | _ => ⟨st.out, calls, PageExit.badShape⟩
    else ⟨st.out, calls, PageExit.nonOk⟩

/-- `_page_through`, fuelled: the loop starting from empty output,
offset 0 and no seen signatures. -/
def _page_through (src : Nat → Nat → Int × Value) (fuel : Nat) : PageOut :=
  pageLoop src fuel ⟨[], 0, [], 0⟩

/-! ### Scenario data and spec-side definitions used by the claims -/

/-- The spec's reading of the identity key, for comparison with
`get_uuid`: "the value of the first field *present* in the priority
order `uuid`, `UUID`, `id`, `Id`, stringified" (no truthiness
filtering). -/
def specFirstPresentKey (row : Rec) : Option String :=
  (UUID_KEYS.find? (fun k => dictHas row k)).map (fun k => pyStr (dictGet row k))

/-- An arbitrary fresh-identifier supply for scenarios whose records all
carry explicit ids (the supply is never consulted there). -/
def freshU : Nat → String := fun i => "u" ++ toString i

/-- The integer payload of a summary-row cell, for reading counts back
out of a summary row. -/
def cellInt : Option Value → Int
  | some (Value.int n) => n
  | _ => 0

def c8r1 : Rec := [("id", Value.int 1), ("created_at", Value.str "2025-03-01")]

def c8r2 : Rec :=
  [("id", Value.int 2), ("created_at", Value.str "2024-11-01"),
   ("scheduled_start", Value.str "2025-01-15")]

def c8r3 : Rec := [("id", Value.int 3), ("created_at", Value.str "2024-06-01")]

/-- Job pull A of the end-to-end scenario. -/
def c8pullA : List Rec := [c8r1]

/-- Job pull B of the end-to-end scenario. -/
def c8pullB : List Rec := [c8r1, c8r2, c8r3]

/-- The deduplicated union of the two pulls of the end-to-end
scenario. -/
def c8dedup : List (String × Rec) := build_dedup freshU (c8pullA ++ c8pullB)

/-- The retained records of the end-to-end scenario (target year
2025). -/
def c8kept : List Rec :=
  (c8dedup.map Prod.snd).filter (keep_created_or_scheduled_this_year 2025)

/-- A job created in the target year whose own status field holds a
value outside the fixed status set. -/
def weirdStatusRow : Rec :=
  [("id", Value.str "7"), ("created_at", Value.str "2025-04-01"),
   ("status", Value.str "Weird"), ("_status_pull", Value.str "Done")]

/-- The retained rows of the out-of-set-status scenario, computed by the
real pipeline (dedup then retention filter, target year 2025). -/
def weirdKept : List Rec :=
  ((build_dedup freshU [weirdStatusRow]).map Prod.snd).filter
    (keep_created_or_scheduled_this_year 2025)

/-- A kept record whose own status field is set but not in the fixed
status set, while its `_status_pull` is. -/
def c6row : Rec := [("status", Value.str "Weird"), ("_status_pull", Value.str "Done")]

/-- One page row with identity "A". -/
def c3row : Value := Value.dict [("id", Value.str "A")]

/-- A full page (exactly `PAGE_SIZE` rows) of identical records. -/
def c3page : List Value := List.replicate PAGE_SIZE c3row

/-- A page source that ignores the offset: every request succeeds with
the same full page. -/
def c3src : Nat → Nat → Int × Value := fun _ _ => (200, Value.list c3page)

/-- A page source that answers the first request with one fixed page and
every later request with an empty page. -/
def twoPageSrc (rows : List Value) : Nat → Nat → Int × Value :=
  fun c _ => if c = 0 then (200, Value.list rows) else (200, Value.list [])

/-- Most-significant-digit-first decimal digits of a natural number
(reference rendering used to reason about `Nat.repr`). -/
def digitsAux (n : Nat) : List Char :=
  if _h : n < 10 then [Nat.digitChar n]
  else digitsAux (n / 10) ++ [Nat.digitChar (n % 10)]
termination_by n
decreasing_by exact Nat.div_lt_self (by omega) (by omega)

/-! ### Association-list lemmas -/

theorem lookupRec_nil {α : Type} (k : String) : lookupRec ([] : List (String × α)) k = none :=
  rfl

theorem lookupRec_cons {α : Type} (k' k : String) (v : α) (m : List (String × α)) :
    lookupRec ((k', v) :: m) k = if k' = k then some v else lookupRec m k := by
  by_cases h : k' = k
  · simp [lookupRec, List.find?, h]
  · have hb : (k' == k) = false := by simp [h]
    simp [lookupRec, List.find?, hb, h]

theorem lookupRec_append {α : Type} (m₁ m₂ : List (String × α)) (k : String) :
    lookupRec (m₁ ++ m₂) k = (lookupRec m₁ k).orElse (fun _ => lookupRec m₂ k) := by
  induction m₁ with
  | nil => simp [lookupRec_nil]
  | cons p t ih =>
    rw [List.cons_append, ← Prod.mk.eta (p := p), lookupRec_cons, lookupRec_cons]
    by_cases h : p.1 = k <;> simp [h, ih]

theorem lookupRec_eq_find {α : Type} (m : List (String × α)) (k : String) :
    lookupRec m k = (m.find? (fun p => p.1 == k)).map Prod.snd := by
  unfold lookupRec
  cases m.find? (fun p => p.1 == k) <;> simp

theorem lookupRec_eq_none_iff {α : Type} (m : List (String × α)) (k : String) :
    lookupRec m k = none ↔ k ∉ m.map Prod.fst := by
  induction m with
  | nil => simp [lookupRec_nil]
  | cons p t ih =>
    rw [← Prod.mk.eta (p := p), lookupRec_cons]
    by_cases h : p.1 = k
    · simp [h]
    · have h2 : k ≠ p.1 := fun hh => h hh.symm
      simp [h, h2, ih]

/-! ### Deduplication: helper lemmas -/

theorem dedupInto_lookup (fresh : Nat → String) (rows : List Rec) :
    ∀ (c : Nat) (acc : List (String × Rec)) (k : String),
      lookupRec (dedupInto fresh rows c acc) k =
        (lookupRec acc k).orElse (fun _ => lookupRec (assignKeys fresh rows c) k) := by
  induction rows with
  | nil => intro c acc k; simp [dedupInto, assignKeys, lookupRec_nil]
  | cons r rs ih =>
    intro c acc k
    simp only [dedupInto, assignKeys]
    cases hft : firstTruthy r UUID_KEYS with
    | some v =>
      by_cases hmem : (lookupRec acc (pyStr v)).isSome
      · simp only [hmem, if_true, ih, lookupRec_cons]
        by_cases hk : pyStr v = k
        · subst hk
          obtain ⟨w, hw⟩ := Option.isSome_iff_exists.mp hmem
          simp [hw]
        · simp [hk]
      · simp only [hmem, if_false, ih, lookupRec_append, lookupRec_cons, Bool.false_eq_true]
        by_cases hk : pyStr v = k
        · subst hk
          rw [Option.not_isSome_iff_eq_none] at hmem
          simp [hmem, lookupRec_cons, lookupRec_nil]
        · cases lookupRec acc k <;> simp [hk, lookupRec_cons, lookupRec_nil]
    | none =>
      by_cases hmem : (lookupRec acc (fresh c)).isSome
      · simp only [hmem, if_true, ih, lookupRec_cons]
        by_cases hk : fresh c = k
        · subst hk
          obtain ⟨w, hw⟩ := Option.isSome_iff_exists.mp hmem
          simp [hw]
        · simp [hk]
      · simp only [hmem, if_false, ih, lookupRec_append, lookupRec_cons, Bool.false_eq_true]
        by_cases hk : fresh c = k
        · subst hk
          rw [Option.not_isSome_iff_eq_none] at hmem
          simp [hmem, lookupRec_cons, lookupRec_nil]
        · cases lookupRec acc k <;> simp [hk, lookupRec_cons, lookupRec_nil]

theorem dedupInto_nodup (fresh : Nat → String) (rows : List Rec) :
    ∀ (c : Nat) (acc : List (String × Rec)), (acc.map Prod.fst).Nodup →
      ((dedupInto fresh rows c acc).map Prod.fst).Nodup := by
  induction rows with
  | nil => intro c acc h; simpa [dedupInto] using h
  | cons r rs ih =>
    intro c acc h
    simp only [dedupInto]
    cases hft : firstTruthy r UUID_KEYS with
    | some v =>
      by_cases hmem : (lookupRec acc (pyStr v)).isSome
      · simp only [hmem, if_true]; exact ih c acc h
      · simp only [hmem, if_false, Bool.false_eq_true]
        apply ih
        rw [Option.not_isSome_iff_eq_none, lookupRec_eq_none_iff] at hmem
        simp [List.nodup_append, h, hmem]
    | none =>
      by_cases hmem : (lookupRec acc (fresh c)).isSome
      · simp only [hmem, if_true]; exact ih (c + 1) acc h
      · simp only [hmem, if_false, Bool.false_eq_true]
        apply ih
        rw [Option.not_isSome_iff_eq_none, lookupRec_eq_none_iff] at hmem
        simp [List.nodup_append, h, hmem]

/-! ### Claim theorems: retention, dedup, retry, identity -/

/-- C1: the retention predicate returns true when the probed
created-date field parses to a date in the target year or the probed
scheduled-date field does; it returns false when neither field is
present, and false when both fields are present but unparseable. -/
theorem keep_created_or_scheduled_spec (y : Nat) (row : Rec) :
    (((∃ d, parse_dt (get_field row CREATED_KEYS) = some d ∧ d.year = y) ∨
      (∃ d, parse_dt (get_field row SCHEDULED_KEYS) = some d ∧ d.year = y)) →
      keep_created_or_scheduled_this_year y row = true) ∧
    (get_field row CREATED_KEYS = none → get_field row SCHEDULED_KEYS = none →
      keep_created_or_scheduled_this_year y row = false) ∧
    (∀ vc vs, get_field row CREATED_KEYS = some vc → parse_dt (some vc) = none →
      get_field row SCHEDULED_KEYS = some vs → parse_dt (some vs) = none →
      keep_created_or_scheduled_this_year y row = false) := by
  refine ⟨?_, ?_, ?_⟩
  · rintro (⟨d, hd, hy⟩ | ⟨d, hd, hy⟩) <;>
      simp [keep_created_or_scheduled_this_year, hd, in_this_year, hy]
  · intro h1 h2
    simp [keep_created_or_scheduled_this_year, h1, h2, parse_dt, in_this_year]
  · intro vc vs h1 h2 h3 h4
    simp [keep_created_or_scheduled_this_year, h1, h2, h3, h4, in_this_year]

theorem keep_created_or_scheduled_spec_witness :
    keep_created_or_scheduled_this_year 2025 [("created_at", Value.str "2025-03-01")] = true :=
  (keep_created_or_scheduled_spec 2025 [("created_at", Value.str "2025-03-01")]).1
    (Or.inl ⟨⟨2025, 3, 1, 0, 0, 0, 0, none⟩, rfl, rfl⟩)

/-- C2: for every input sequence of records (and every stream of fresh
random identifiers), the dedup mapping built in `main` has each
identity key at most once, and the record stored under a key is the
first record of the input, in order, whose identity key it is; later
records with the same key are dropped. -/
theorem dedup_first_occurrence_wins (fresh : Nat → String) (rows : List Rec) :
    ((build_dedup fresh rows).map Prod.fst).Nodup ∧
    ∀ k : String, lookupRec (build_dedup fresh rows) k =
      ((assignKeys fresh rows 0).find? (fun p => p.1 == k)).map Prod.snd := by
  constructor
  · exact dedupInto_nodup fresh rows 0 [] (by simp)
  · intro k
    rw [build_dedup, dedupInto_lookup, ← lookupRec_eq_find]
    simp [lookupRec_nil]

/-- C5: when every HTTP request comes back with status 503, `_get`
issues exactly `MAX_RETRIES` = 4 requests, sleeping after each with
attempt numbers 1, 2, 3, 4 (each attempt `a` sleeps
`BACKOFF_BASE_S * a ** 1.5` seconds), then returns the synthetic
error-tagged result `(0, {"error": True, "msg": …})` without raising. -/
theorem get_all_503_retries (bodies : Nat → Value) :
    _get (fun i => HttpOutcome.resp 503 (bodies i)) =
      ⟨0, retryErrorBody, MAX_RETRIES, [1, 2, 3, 4]⟩ :=
  rfl

/-- C9 counterexample: on a record whose `uuid` field is present but
falsy (the empty string) while `id` holds `"J1"`, the claim's
first-*present*-field reading predicts the key `""`, but `get_uuid`
returns `"J1"`. -/
theorem identity_key_counterexample :
    specFirstPresentKey [("uuid", Value.str ""), ("id", Value.str "J1")] = some "" ∧
    get_uuid [("uuid", Value.str ""), ("id", Value.str "J1")] "w" = "J1" ∧
    ("" : String) ≠ "J1" :=
  ⟨rfl, rfl, by decide⟩

/-- C9 (amended): the identity key is the stringified value of the
first probed field (`uuid`, `UUID`, `id`, `Id`) whose value is truthy;
when no probed field holds a truthy value, the fresh random identifier
is returned, so two calls drawing distinct fresh identifiers yield
different keys and such a record is never recognized as a duplicate. -/
theorem get_uuid_spec (row : Rec) (fr₁ fr₂ : String) :
    (∀ v, firstTruthy row UUID_KEYS = some v → get_uuid row fr₁ = pyStr v) ∧
    (firstTruthy row UUID_KEYS = none →
      get_uuid row fr₁ = fr₁ ∧ (fr₁ ≠ fr₂ → get_uuid row fr₁ ≠ get_uuid row fr₂)) := by
  constructor
  · intro v hv; simp [get_uuid, hv]
  · intro h; simp [get_uuid, h]

theorem get_uuid_spec_witness :
    get_uuid [("uuid", Value.str "X")] "a" = "X" ∧ get_uuid [] "a" = "a" :=
  ⟨(get_uuid_spec [("uuid", Value.str "X")] "a" "b").1 (Value.str "X") rfl,
   ((get_uuid_spec [] "a" "b").2 rfl).1⟩

/-- C8: in the end-to-end scenario (target year 2025), the
deduplicated union of pulls A and B has exactly the identity keys
`1`, `2`, `3`; the retained set is `{1, 2}` (record 3 has both its
created and scheduled signals outside 2025); and the summary row's
`Jobs_Total` is 2. -/
theorem end_to_end_2025_scenario :
    c8dedup.map Prod.fst = ["1", "2", "3"] ∧
    c8kept = [c8r1, c8r2] ∧
    (summary_row "A" "endpoint" 0 c8kept).map (fun srow => lookupRec srow "Jobs_Total") =
      some (some (Value.int 2)) :=
  ⟨rfl, rfl, rfl⟩

/-! ### Payload normalization -/

theorem isList_normalize (obj : Value) : isList (_normalize_payload obj) = true := by
  cases obj with
  | dict fs =>
    rw [show _normalize_payload (Value.dict fs) = (match dictGet fs "data" with
        | Value.list xs => Value.list xs
        | _ => (match dictGet fs "aaData" with
          | Value.list xs => Value.list xs
          | _ => (match dictGet fs "error" with
            | Value.bool true => Value.list []
            | _ => Value.list []))) from rfl]
    cases dictGet fs "data" <;> try rfl
    all_goals (cases dictGet fs "aaData" <;> try rfl)
    all_goals (cases dictGet fs "error" <;> try rfl)
    all_goals (rename_i b; cases b <;> rfl)
  | null => rfl
  | bool b => rfl
  | int n => rfl
  | str s => rfl
  | list xs => rfl

theorem exists_list_of_isList {v : Value} (h : isList v = true) : ∃ xs, v = Value.list xs := by
  cases v <;> simp [isList] at h ⊢

/-- C10: `_normalize_payload` is total and always returns a Python
list, for every decoded body shape; consequently the
"Unexpected payload shape" branch of `_page_through` — taken only when
the normalized page is not a list — can never be the loop's exit. -/
theorem normalize_payload_always_list :
    (∀ obj : Value, isList (_normalize_payload obj) = true) ∧
    (∀ (src : Nat → Nat → Int × Value) (fuel : Nat) (st : PageState),
      (pageLoop src fuel st).exit ≠ PageExit.badShape) := by
  refine ⟨isList_normalize, ?_⟩
  intro src fuel
  induction fuel with
  | zero => intro st h; simp [pageLoop] at h
  | succ f ih =>
    intro st
    obtain ⟨xs, hxs⟩ := exists_list_of_isList (isList_normalize (src st.calls st.offset).2)
    simp only [pageLoop, hxs]
    split
    · split
      · simp
      · split
        · split
          · simp
          · split
            · simp
            · exact ih _
        · simp
    · simp

/-! ### Tally lemmas -/

theorem lookupRec_map_bump (m : List (String × Nat)) (k s : String) :
    lookupRec (m.map (fun p => if p.1 == k then (p.1, p.2 + 1) else p)) s =
      (lookupRec m s).map (fun n => if s = k then n + 1 else n) := by
  simp only [beq_iff_eq]
  induction m with
  | nil => simp [lookupRec_nil]
  | cons p t ih =>
    obtain ⟨a, b⟩ := p
    simp only [List.map_cons]
    by_cases h1 : a = k
    · subst h1
      by_cases h2 : a = s
      · subst h2; simp [lookupRec_cons]
      · simp [lookupRec_cons, h2, ih]
    · by_cases h2 : a = s
      · subst h2
        simp [lookupRec_cons, h1]
      · simp [lookupRec_cons, h1, h2, ih]

theorem bump_countD (m : List (String × Nat)) (k s : String) :
    countD (bump m k) s = countD m s + (if s = k then 1 else 0) := by
  unfold bump
  by_cases hmem : (lookupRec m k).isSome
  · rw [if_pos hmem]
    unfold countD
    rw [lookupRec_map_bump]
    by_cases hks : s = k
    · subst hks
      obtain ⟨n, hn⟩ := Option.isSome_iff_exists.mp hmem
      simp [hn]
    · cases lookupRec m s <;> simp [hks]
  · rw [if_neg hmem]
    unfold countD
    rw [lookupRec_append]
    by_cases hks : s = k
    · subst hks
      rw [Option.not_isSome_iff_eq_none] at hmem
      simp [hmem, lookupRec_cons, lookupRec_nil]
    · have hne : ¬(k = s) := fun hh => hks hh.symm
      rw [show lookupRec [(k, 1)] s = none by simp [lookupRec_cons, lookupRec_nil, hne]]
      cases lookupRec m s <;> simp [hks]

theorem status_countsAux_countD (rows : List Rec) :
    ∀ (m m' : List (String × Nat)), status_countsAux rows m = some m' →
      ∀ s, countD m' s = countD m s + rows.countP (fun r => tallyKey r == some s) := by
  induction rows with
  | nil =>
    intro m m' h s
    simp only [status_countsAux, Option.some_inj] at h
    subst h; simp
  | cons r rs ih =>
    intro m m' h s
    simp only [status_countsAux] at h
    cases htk : tallyKey r with
    | none => rw [htk] at h; simp at h
    | some k =>
      rw [htk] at h
      have hih := ih (bump m k) m' h s
      rw [hih, bump_countD, List.countP_cons]
      have hif : (if (tallyKey r == some s) = true then 1 else 0) = (if s = k then 1 else 0) := by
        rw [htk]
        rcases eq_or_ne s k with hks | hks
        · subst hks; simp
        · simp [hks, hks.symm]
      rw [hif]
      omega

theorem countD_init (l : List String) (s : String) :
    countD (l.map (fun st => (st, 0))) s = 0 := by
  induction l with
  | nil => simp [countD, lookupRec_nil]
  | cons a t ih =>
    by_cases h : a = s
    · simp [countD, lookupRec_cons, h]
    · simp only [List.map_cons, countD, lookupRec_cons, h, if_false]
      simpa [countD] using ih

/-- The per-status tally counts each kept record under its effective
status value `tallyKey`. -/
theorem countD_status_counts (rows : List Rec) (m : List (String × Nat))
    (h : status_counts rows = some m) (s : String) :
    countD m s = rows.countP (fun r => tallyKey r == some s) := by
  have := status_countsAux_countD rows _ m h s
  rwa [countD_init, Nat.zero_add] at this

theorem sum_map_add {α : Type} (l : List α) (f g : α → Nat) :
    (l.map (fun a => f a + g a)).sum = (l.map f).sum + (l.map g).sum := by
  induction l with
  | nil => simp
  | cons a t ih => simp [ih]; omega

theorem indicator_sum (l : List String) (hl : l.Nodup) (s : String) :
    (l.map (fun st => if s = st then (1 : Nat) else 0)).sum = if s ∈ l then 1 else 0 := by
  induction l with
  | nil => simp
  | cons a t ih =>
    have ht := (List.nodup_cons.mp hl).2
    have ha := (List.nodup_cons.mp hl).1
    by_cases h : s = a
    · subst h
      have hsn : s ∉ t := ha
      simp [ih ht, hsn]
    · simp [h, ih ht]

theorem sum_countP_statuses (kept : List Rec) :
    (JOB_STATUSES.map (fun st => kept.countP (fun r => tallyKey r == some st))).sum =
      kept.countP (fun r => (tallyKey r).any (fun s => decide (s ∈ JOB_STATUSES))) := by
  induction kept with
  | nil => simp [JOB_STATUSES]
  | cons r rs ih =>
    simp only [List.countP_cons]
    rw [sum_map_add, ih]
    congr 1
    cases htk : tallyKey r with
    | none => simp
    | some s =>
      simp only [htk, Option.any_some, beq_iff_eq, Option.some_inj]
      rw [indicator_sum JOB_STATUSES (by decide) s]
      simp

/-! ### Claim theorems: tally and summary -/

/-- C6 counterexample: a kept record whose own status field holds
`"Weird"` (outside the fixed status set) while its `_status_pull` is
`"Done"` is tallied under `"Weird"`, not under the status it was
fetched under: the tally gains a `"Weird"` entry with count 1 and
`"Done"` stays at 0. -/
theorem tally_ignores_fixed_set_counterexample :
    status_counts [c6row] =
      some [("Submitted", 0), ("In Progress", 0), ("Done", 0),
            ("Done Pending Approval", 0), ("Canceled", 0), ("Weird", 1)] ∧
    ("Weird" ∈ JOB_STATUSES → False) ∧
    tallyKey c6row = some "Weird" ∧
    dictGet c6row "_status_pull" = Value.str "Done" :=
  ⟨rfl, by decide, rfl, rfl⟩

/-- C6 (amended): the per-status tally counts each kept record under
the stripped value of the first truthy field among `status`,
`JobStatus`, `_status_pull` (empty string when none is truthy),
regardless of whether that value lies in the fixed status set: for
every status value `s`, the tallied count of `s` equals the number of
kept records whose effective status is `s`. -/
theorem tally_status_spec (rows : List Rec) (m : List (String × Nat))
    (h : status_counts rows = some m) (s : String) :
    countD m s = rows.countP (fun r => tallyKey r == some s) :=
  countD_status_counts rows m h s

theorem tally_status_spec_witness :
    countD [("Submitted", 0), ("In Progress", 0), ("Done", 0),
            ("Done Pending Approval", 0), ("Canceled", 0), ("Weird", 1)] "Weird" =
      List.countP (fun r => tallyKey r == some "Weird") [c6row] :=
  tally_status_spec [c6row] _ rfl "Weird"

/-- C4 counterexample: for an account whose single kept job carries the
out-of-set status `"Weird"`, the summary row has `Jobs_Total = 1` while
the five `Jobs_<status>` cells sum to 0, so `Jobs_Total` does not equal
the sum of the per-status values. -/
theorem summary_total_ne_sum_counterexample :
    cellInt ((summary_row "A" "endpoint" 0 weirdKept).bind
        (fun srow => lookupRec srow "Jobs_Total")) = 1 ∧
    (JOB_STATUSES.map (fun st =>
        cellInt ((summary_row "A" "endpoint" 0 weirdKept).bind
          (fun srow => lookupRec srow ("Jobs_" ++ st))))).sum = 0 ∧
    (1 : Int) ≠ 0 :=
  ⟨rfl, rfl, by decide⟩

/-- C4 (amended): `Jobs_Total` equals the number of kept records, and
each `Jobs_<status>` cell carries the tallied count of that fixed
status; the five `Jobs_<status>` values sum to the number of kept
records whose effective status lies in the fixed set — so `Jobs_Total`
equals that sum exactly when every kept record's effective status is in
the fixed set, and a kept record with an out-of-set status is counted
in `Jobs_Total` but in none of the five columns. -/
theorem jobs_total_and_status_sum (name endpoint : String) (leads : Nat)
    (kept : List Rec) (sc : List (String × Nat)) (srow : Rec)
    (hsc : status_counts kept = some sc)
    (hrow : summary_row name endpoint leads kept = some srow) :
    lookupRec srow "Jobs_Total" = some (Value.int kept.length) ∧
    (∀ st ∈ JOB_STATUSES, lookupRec srow ("Jobs_" ++ st) = some (Value.int (countD sc st))) ∧
    (JOB_STATUSES.map (fun st => countD sc st)).sum =
      kept.countP (fun r => (tallyKey r).any (fun s => decide (s ∈ JOB_STATUSES))) := by
  unfold summary_row at hrow
  rw [hsc] at hrow
  simp only [Option.some_inj] at hrow
  subst hrow
  refine ⟨rfl, ?_, ?_⟩
  · intro st hst
    fin_cases hst <;> rfl
  · have hc : ∀ s, countD sc s = kept.countP (fun r => tallyKey r == some s) :=
      countD_status_counts kept sc hsc
    calc (JOB_STATUSES.map (fun st => countD sc st)).sum
        = (JOB_STATUSES.map (fun st =>
            kept.countP (fun r => tallyKey r == some st))).sum := by
          simp only [hc]
      _ = kept.countP (fun r => (tallyKey r).any (fun s => decide (s ∈ JOB_STATUSES))) :=
          sum_countP_statuses kept

theorem jobs_total_and_status_sum_witness :
    lookupRec [("Account", Value.str "A"), ("Endpoint", Value.str "E"),
        ("Leads", Value.int 0), ("Jobs_Submitted", Value.int 0),
        ("Jobs_In Progress", Value.int 0), ("Jobs_Done", Value.int 0),
        ("Jobs_Done Pending Approval", Value.int 0), ("Jobs_Canceled", Value.int 0),
        ("Jobs_Total", Value.int 0)] "Jobs_Total" =
      some (Value.int ([] : List Rec).length) :=
  (jobs_total_and_status_sum "A" "E" 0 [] _ _ rfl rfl).1

/-! ### Decimal numerals: the offset component determines a page
signature, so a signature seen at one offset can never recur at
another. -/

theorem digitChar_isDigit {n : Nat} (h : n < 10) : (Nat.digitChar n).isDigit = true := by
  interval_cases n <;> decide

theorem digitChar_toNat {n : Nat} (h : n < 10) : (Nat.digitChar n).toNat - 48 = n := by
  interval_cases n <;> decide

theorem digitsAux_digits (n : Nat) : ∀ c ∈ digitsAux n, c.isDigit = true := by
  induction n using Nat.strong_induction_on with
  | _ n ih =>
    rw [digitsAux]
    by_cases h : n < 10
    · simp only [h, dif_pos]
      intro c hc
      rw [List.mem_singleton] at hc
      subst hc
      exact digitChar_isDigit h
    · simp only [h, dif_neg, not_false_iff]
      intro c hc
      rcases List.mem_append.mp hc with h1 | h2
      · exact ih (n / 10) (Nat.div_lt_self (by omega) (by omega)) c h1
      · rw [List.mem_singleton] at h2
        subst h2
        exact digitChar_isDigit (Nat.mod_lt _ (by omega))

theorem digitsAux_val (n : Nat) :
    ∀ a, List.foldl (fun acc c => acc * 10 + (c.toNat - 48)) a (digitsAux n) =
      a * 10 ^ (digitsAux n).length + n := by
  induction n using Nat.strong_induction_on with
  | _ n ih =>
    intro a
    rw [digitsAux]
    by_cases h : n < 10
    · simp only [h, dif_pos, List.foldl_cons, List.foldl_nil, List.length_singleton]
      rw [digitChar_toNat h]
      ring_nf
    · simp only [h, dif_neg, not_false_iff, List.foldl_append, List.length_append,
        List.foldl_cons, List.foldl_nil, List.length_singleton]
      rw [ih (n / 10) (Nat.div_lt_self (by omega) (by omega)) a]
      rw [digitChar_toNat (Nat.mod_lt _ (by omega))]
      rw [pow_succ]
      ring_nf
      omega

theorem digitsAux_inj {m n : Nat} (h : digitsAux m = digitsAux n) : m = n := by
  have hm := digitsAux_val m 0
  have hn := digitsAux_val n 0
  rw [h] at hm
  rw [hn] at hm
  omega

theorem toDigitsCore_eq (fuel n : Nat) (ds : List Char) (hf : 0 < fuel)
    (h : n < 10 ^ fuel) : Nat.toDigitsCore 10 fuel n ds = digitsAux n ++ ds := by
  induction fuel generalizing n ds with
  | zero => omega
  | succ f ih =>
    simp only [Nat.toDigitsCore]
    by_cases hd : n / 10 = 0
    · have hn : n < 10 := by omega
      rw [if_pos hd, digitsAux]
      simp [hn, Nat.mod_eq_of_lt hn]
    · have hn : ¬n < 10 := by omega
      have hfpos : 0 < f := by
        rcases Nat.eq_zero_or_pos f with hf0 | hf0
        · subst hf0; simp at h; omega
        · exact hf0
      have hlt : n / 10 < 10 ^ f := by
        rw [Nat.div_lt_iff_lt_mul (by omega)]
        calc n < 10 ^ (f + 1) := h
          _ = 10 ^ f * 10 := by rw [pow_succ]
      rw [if_neg hd, ih (n / 10) _ hfpos hlt]
      conv_rhs => rw [digitsAux]
      rw [dif_neg hn]
      simp

theorem natToString_data (n : Nat) : (toString n).data = digitsAux n := by
  show (Nat.repr n).data = digitsAux n
  unfold Nat.repr Nat.toDigits
  rw [toDigitsCore_eq (n + 1) n [] (by omega)
    (lt_of_lt_of_le (Nat.lt_pow_self (by omega) n)
      (Nat.pow_le_pow_right (by omega) (Nat.le_succ n)))]
  simp [List.asString]

theorem natToString_colonFree (n : Nat) : ∀ c ∈ (toString n).data, c ≠ ':' := by
  rw [natToString_data]
  intro c hc heq
  have hdig := digitsAux_digits n c hc
  rw [heq] at hdig
  exact absurd hdig (by decide)

theorem append_colonFree_inj (l1 : List Char) :
    ∀ (l2 r1 r2 : List Char), (∀ c ∈ l1, c ≠ ':') → (∀ c ∈ l2, c ≠ ':') →
      l1 ++ ':' :: r1 = l2 ++ ':' :: r2 → l1 = l2 ∧ r1 = r2 := by
  induction l1 with
  | nil =>
    intro l2 r1 r2 _ h2 h
    cases l2 with
    | nil => simpa using h
    | cons b t =>
      rw [List.nil_append, List.cons_append] at h
      have hb := (List.cons.injEq _ _ _ _).mp h
      exact absurd hb.1.symm (h2 b (by simp))
  | cons a t1 ih =>
    intro l2 r1 r2 h1 h2 h
    cases l2 with
    | nil =>
      rw [List.nil_append, List.cons_append] at h
      have hb := (List.cons.injEq _ _ _ _).mp h
      exact absurd hb.1 (h1 a (by simp))
    | cons b t2 =>
      rw [List.cons_append, List.cons_append] at h
      have hb := (List.cons.injEq _ _ _ _).mp h
      obtain ⟨hab, htail⟩ := hb
      subst hab
      have := ih t2 r1 r2 (fun c hc => h1 c (by simp [hc])) (fun c hc => h2 c (by simp [hc]))
        htail
      exact ⟨by rw [this.1], this.2⟩

theorem mkSig_offset_inj {o1 o2 n1 n2 : Nat} {f1 f2 g1 g2 : String}
    (h : mkSig o1 n1 f1 g1 = mkSig o2 n2 f2 g2) : o1 = o2 := by
  unfold mkSig at h
  have hd := congrArg String.data h
  simp only [String.data_append] at hd
  simp only [List.append_assoc, List.singleton_append] at hd
  have := append_colonFree_inj _ _ _ _ (natToString_colonFree o1) (natToString_colonFree o2) hd
  have hds : digitsAux o1 = digitsAux o2 := by
    rw [← natToString_data, ← natToString_data]
    exact this.1
  exact digitsAux_inj hds

/-! ### Pagination lemmas -/

theorem contains_eq_false_of_not_mem {l : List String} {a : String} (h : a ∉ l) :
    l.contains a = false := by
  cases hc : l.contains a
  · rfl
  · exact absurd (List.elem_iff.mp hc) h

theorem sigFirstOf_isSome {v : Value} (h : isDict v = true) : ∃ s, sigFirstOf v = some s := by
  cases v <;> simp [isDict] at h
  rename_i fs
  show ∃ s, (match firstTruthy fs ["uuid", "UUID", "id"] with
    | some v => some (pyStr v)
    | none => some (pySliceTake (pyRepr (Value.dict fs)) 40)) = some s
  cases firstTruthy fs ["uuid", "UUID", "id"] <;> exact ⟨_, rfl⟩

theorem c3_sig_first : c3page.head? >>= sigFirstOf = some "A" := rfl

theorem c3_sig_last : c3page.getLast? >>= sigLastOf = some "A" := rfl

theorem c3_normalize : _normalize_payload (Value.list c3page) = Value.list c3page := rfl

theorem c3_len : c3page.length = PAGE_SIZE := rfl

theorem c3_loop (fuel : Nat) : ∀ st : PageState,
    (∀ s ∈ st.seen, ∃ o, o < st.offset ∧ s = mkSig o PAGE_SIZE "A" "A") →
    (pageLoop c3src fuel st).exit = PageExit.fuelOut := by
  induction fuel with
  | zero => intro st _; rfl
  | succ f ih =>
    intro st hinv
    have hcont : st.seen.contains (mkSig st.offset PAGE_SIZE "A" "A") = false := by
      apply contains_eq_false_of_not_mem
      intro hmem
      obtain ⟨o, ho, hs⟩ := hinv _ hmem
      have := mkSig_offset_inj hs
      omega
    show (pageLoop c3src (f + 1) st).exit = PageExit.fuelOut
    rw [pageLoop]
    simp only [c3src, c3_normalize, c3_len, c3_sig_first, c3_sig_last]
    rw [if_pos trivial]
    rw [if_neg (by decide : ¬(PAGE_SIZE = 0))]
    rw [hcont]
    simp only [Bool.false_eq_true, if_false]
    rw [if_neg (by decide : ¬(PAGE_SIZE < PAGE_SIZE))]
    apply ih
    dsimp only
    intro s hs
    rcases List.mem_cons.mp hs with hnew | hold
    · exact ⟨st.offset, Nat.lt_add_of_pos_right (by decide), hnew⟩
    · obtain ⟨o, ho, hsig⟩ := hinv s hold
      exact ⟨o, by omega, hsig⟩

theorem sigLastOf_isSome {v : Value} (h : isDict v = true) : ∃ s, sigLastOf v = some s := by
  cases v <;> simp [isDict] at h
  rename_i fs
  show ∃ s, (match firstTruthy fs ["uuid", "UUID", "id"] with
    | some v => some (pyStr v)
    | none => some (pySliceLast (pyRepr (Value.dict fs)) 40)) = some s
  cases firstTruthy fs ["uuid", "UUID", "id"] <;> exact ⟨_, rfl⟩

/-! ### Claim theorems: pagination -/

/-- C3 (refuting the claimed behavior): against a source that ignores
the offset and answers every request with the same full page of
`PAGE_SIZE` identical records, `_page_through` never terminates — for
every fuel budget the loop is still running. Each iteration's signature
embeds the strictly increasing offset, so no signature ever repeats and
the repeated-signature break can never fire. -/
theorem page_through_constant_page_never_terminates (fuel : Nat) :
    (_page_through c3src fuel).exit = PageExit.fuelOut :=
  c3_loop fuel ⟨[], 0, [], 0⟩ (by intro s hs; simp at hs)

/-- C7: a page source that answers the first request with exactly
`PAGE_SIZE` records and the second with an empty page makes
`_page_through` return all `PAGE_SIZE` records in arrival order and
stop, having issued exactly 2 fetch calls, whatever extra fuel is
available. -/
theorem page_through_full_then_empty (rows : List Value) (f : Nat)
    (hlen : rows.length = PAGE_SIZE)
    (hdict : ∀ r ∈ rows, isDict r = true) :
    _page_through (twoPageSrc rows) (f + 2) = ⟨rows, 2, PageExit.shortPage⟩ := by
  have hne : rows ≠ [] := by
    intro h
    rw [h] at hlen
    exact absurd hlen (by decide)
  obtain ⟨r0, hr0⟩ : ∃ r0, rows.head? = some r0 := by
    cases rows with
    | nil => exact absurd rfl hne
    | cons a t => exact ⟨a, rfl⟩
  have hr0m : r0 ∈ rows := by
    cases rows with
    | nil => simp at hr0
    | cons a t =>
      rw [show (a :: t).head? = some a from rfl, Option.some_inj] at hr0
      rw [← hr0]
      exact List.mem_cons_self a t
  obtain ⟨rl, hrl⟩ : ∃ rl, rows.getLast? = some rl :=
    Option.isSome_iff_exists.mp (by rwa [List.getLast?_isSome])
  have hrlm : rl ∈ rows := List.mem_of_getLast?_eq_some hrl
  obtain ⟨sf, hsf⟩ := sigFirstOf_isSome (hdict r0 hr0m)
  obtain ⟨sl, hsl⟩ := sigLastOf_isSome (hdict rl hrlm)
  have hbind1 : rows.head? >>= sigFirstOf = some sf := by rw [hr0]; simpa using hsf
  have hbind2 : rows.getLast? >>= sigLastOf = some sl := by rw [hrl]; simpa using hsl
  have hnorm : _normalize_payload (Value.list rows) = Value.list rows := rfl
  show pageLoop (twoPageSrc rows) (f + 1 + 1) ⟨[], 0, [], 0⟩ = _
  rw [pageLoop]
  dsimp only
  rw [show twoPageSrc rows 0 0 = (200, Value.list rows) from rfl]
  dsimp only
  rw [if_pos rfl, hnorm]
  dsimp only
  rw [hlen, if_neg (by decide : ¬(PAGE_SIZE = 0)), hbind1, hbind2]
  dsimp only
  rw [show (([] : List String).contains (mkSig 0 PAGE_SIZE sf sl)) = false from rfl]
  simp only [Bool.false_eq_true, if_false]
  rw [if_neg (by decide : ¬(PAGE_SIZE < PAGE_SIZE))]
  rw [pageLoop]
  dsimp only
  rw [show twoPageSrc rows 1 (0 + PAGE_SIZE) = (200, Value.list []) from rfl]
  dsimp only
  rw [if_pos rfl]
  rw [show _normalize_payload (Value.list []) = Value.list ([] : List Value) from rfl]
  dsimp only
  rw [if_pos (show ([] : List Value).length = 0 from rfl)]
  simp

theorem page_through_full_then_empty_witness :
    _page_through (twoPageSrc (List.replicate 100 c3row)) 2 =
      ⟨List.replicate 100 c3row, 2, PageExit.shortPage⟩ :=
  page_through_full_then_empty (List.replicate 100 c3row) 0 (by decide)
    (by
      intro r hr
      rw [List.eq_of_mem_replicate hr]
      rfl)

theorem dedup_first_occurrence_wins_witness :
    ((build_dedup freshU [c8r1, c8r1]).map Prod.fst).Nodup ∧
      lookupRec (build_dedup freshU [c8r1, c8r1]) "1" =
        ((assignKeys freshU [c8r1, c8r1] 0).find? (fun p => p.1 == "1")).map Prod.snd :=
  ⟨(dedup_first_occurrence_wins freshU [c8r1, c8r1]).1,
   (dedup_first_occurrence_wins freshU [c8r1, c8r1]).2 "1"⟩

theorem get_all_503_retries_witness :
    _get (fun _ => HttpOutcome.resp 503 Value.null) =
      ⟨0, retryErrorBody, MAX_RETRIES, [1, 2, 3, 4]⟩ :=
  get_all_503_retries (fun _ => Value.null)

theorem normalize_payload_always_list_witness :
    isList (_normalize_payload Value.null) = true ∧
      (pageLoop c3src 0 ⟨[], 0, [], 0⟩).exit ≠ PageExit.badShape :=
  ⟨normalize_payload_always_list.1 Value.null,
   normalize_payload_always_list.2 c3src 0 ⟨[], 0, [], 0⟩⟩

theorem page_through_constant_page_never_terminates_witness :
    (_page_through c3src 5).exit = PageExit.fuelOut :=
  page_through_constant_page_never_terminates 5

end Workiz
